import Mathlib

set_option maxHeartbeats 1000000
set_option maxRecDepth 100000

/-!
Shallow embedding of the OryonAI Session & History Manager.

The definitions below translate, as directly as possible, the relevant
source of the repository:

* `src/services/geminiService.ts` — the remote-session layer
  (`initializeChat`, `resetChat`, `sendMessageStream`, the `AGENTS` list);
* the application shell (the `App` component variant that is the most
  complete one in the repository: the one with the stop flag, the
  language-aware instruction and the guarded save-memory effect) —
  `initializeGeminiWithHistory`, the save-memory effect,
  `handleAgentChange`, `handleChatFlow`, `handleSendMessage`,
  `handleClearChat`, `setInitialWelcome`;
* `utils/translations.ts` — the fields of the translation table the
  Manager actually reads, and `getSystemLanguageInstruction`.

React state is modelled by an explicit `AppState` record; every handler is
a pure state transformer.  The remote streaming API is modelled by an
oracle: each remote call's outcome (`Except` of an error-message string or
a list of chunks, each chunk an optional text fragment) is a parameter.
`setMessages` calls with functional updaters act on the current state,
while the `messages` identifier captured by a closure is passed explicitly
as a snapshot parameter where the source reads the (stale) closure value.
The user-initiated stop flag (`stopGenerationRef`) is modelled by the
index of the fragment-loop iteration at which the flag is first observed
set (`stopAt`), since the source polls the flag once per iteration.
-/

namespace Oryon

/-- Attachment carried by a user message (`attachment?: ... data, mimeType` in `types.ts`). -/
structure Attachment where
  data : String
  mimeType : String
deriving DecidableEq, Repr

/-- Message role: `'user' | 'model'` in `types.ts`. -/
inductive Role where
  | user
  | model
deriving DecidableEq, Repr

/-- Message kind: `type?: 'text' | 'image'` in `types.ts`. -/
inductive MsgType where
  | text
  | image
deriving DecidableEq, Repr

/-- The `Message` record of `types.ts`.  `isStreaming?: boolean` is an optional
field whose absence is falsy, and every read in the source (`!m.isStreaming`,
`m.isStreaming !== true`, `lastMsg.isStreaming`) treats `undefined` exactly as
`false`, so it is modelled as a `Bool` defaulting to `false`.  `type` is kept
optional because a message lacking it fails the `m.type === 'text'` filters. -/
structure Message where
  id : String
  role : Role
  text : String
  timestamp : Nat
  isStreaming : Bool := false
  imageUrl : Option String := none
  attachment : Option Attachment := none
  type : Option MsgType := none
deriving DecidableEq, Repr

/-- A turn-payload part of the remote API (`Part` of `@google/genai`):
either inline binary data or a text part. -/
inductive Part where
  | inlineData (data : String) (mimeType : String)
  | text (s : String)
deriving DecidableEq, Repr

/-- A seeded remote turn (`Content` of `@google/genai`): a role plus parts. -/
structure Content where
  role : Role
  parts : List Part
deriving DecidableEq, Repr

/-- Agent profile (`Agent` in `types.ts` / `geminiService.ts`). -/
structure Agent where
  id : String
  name : String
  role : String
  description : String
  themeColor : String
  iconId : String
  systemInstruction : String
deriving DecidableEq, Repr

/-- `COMMON_FORMATTING_RULES` of `geminiService.ts` (reusable formatting rules
shared by every agent instruction). -/
def COMMON_FORMATTING_RULES : String := "
    **VISUAL FORMATTING RULES (MANDATORY):**

    1.  **SECTION SEPARATORS (Horizontal Rule):**
        Use `---` (horizontal line) to separate:
        *   Introduction from Main Content.
        *   Main Content from Conclusion/Outro.
        *   Between major points if the explanation is long.

    2.  **HEADINGS with EMOJI:**
        Use Heading 2 (##) + Emoji for major section titles.
        *   Example: `## 🚀 Core Concept`
        *   Example: `## 💡 Key Solution`
        *   Example: `## 🛠️ Implementation`

    3.  **LISTS & BULLETS:**
        *   Avoid dense paragraphs. Break text into Bullet Points (-) or Numbered Lists (1.) whenever possible.
        *   Use nested lists for sub-points to create visual hierarchy.

    4.  **BOLD for EMPHASIS:**
        **Bold** key terms, variable names, and critical concepts to make the text \"scannable\".

    5.  **TABLES for COMPARISONS:**
        If you are comparing 2 or more things, OR listing parameters/specs, **ALWAYS** use a Markdown Table.

    6.  **CODE BLOCKS:**
        *   Always use language-specific code blocks (e.g., ```typescript).
        *   For explanations of code, prefer comments // INSIDE the code block if it\x27s brief, or bullet points below it."

/-- System instruction of the first agent (`oryon-default`) in `geminiService.ts`. -/
def oryonSystemInstruction : String := "You are OryonAI.
    **IDENTITY:**
    You are an AI assistant that provides **Highly Structured and Scannable** answers.

    " ++ COMMON_FORMATTING_RULES ++ "

    **LANGUAGE STYLE:**
    *   Natural, friendly, but direct and to the point.
    *   Avoid walls of text. Break everything down into small, digestible chunks."

/-- System instruction of the `devcore` agent in `geminiService.ts`. -/
def devcoreSystemInstruction : String := "You are DevCore, an elite coding assistant.
    **IDENTITY:** Technical, precise, minimal.

    " ++ COMMON_FORMATTING_RULES ++ "

    **CODING SPECIFIC RULES:**
    1.  **Use Separators (---)** before and after large code blocks if there is a long explanation.
    2.  **Code Blocks:** ALWAYS wrap code in ```language blocks.
    3.  **Concise:** Explanations must be brief and dense with information."

/-- System instruction of the `velocis` agent in `geminiService.ts`. -/
def velocisSystemInstruction : String := "You are Velocis, a creative muse and visual artist.
    **IDENTITY:** Artistic, eloquent, vivid.

    " ++ COMMON_FORMATTING_RULES ++ "

    **CAPABILITIES:**
    1.  **Visuals:** You have a built-in image generation engine.
    2.  **Style:** Use evocative language. Use separator lines (---) to separate stanzas of poetry or story scenes."

/-- System instruction of the `strategos` agent in `geminiService.ts`. -/
def strategosSystemInstruction : String := "You are Strategos.
    **IDENTITY:** Professional consultant, analytical.

    " ++ COMMON_FORMATTING_RULES ++ "

    **STYLE:**
    *   Formal, structured, and professional.
    *   Use separator lines (---) between analysis sections (e.g., SWOT Analysis separated by points)."

/-- The static `AGENTS` list exported by `geminiService.ts`. -/
def AGENTS : List Agent :=
  [ { id := "oryon-default", name := "Oryon", role := "General Assistant",
      description := "Balanced, helpful, and conversational. Best for daily tasks.",
      themeColor := "text-cyber-accent", iconId := "cpu",
      systemInstruction := oryonSystemInstruction },
    { id := "devcore", name := "DevCore", role := "Coding Expert",
      description := "Strict, efficient, and highly technical. Focus on Clean Code.",
      themeColor := "text-green-400", iconId := "terminal",
      systemInstruction := devcoreSystemInstruction },
    { id := "velocis", name := "Velocis", role := "Creative & Visual Engine",
      description := "Storytelling, creative writing, and visual art generation.",
      themeColor := "text-pink-400", iconId := "feather",
      systemInstruction := velocisSystemInstruction },
    { id := "strategos", name := "Strategos", role := "Business Analyst",
      description := "Formal, structured, and strategic. Best for planning.",
      themeColor := "text-yellow-400", iconId := "briefcase",
      systemInstruction := strategosSystemInstruction } ]

/-- The remote chat session handle: the configuration `ai.chats.create` is
called with in `initializeChat` (model name omitted — it is a constant). -/
structure ChatSession where
  systemInstruction : String
  history : List Content
deriving DecidableEq, Repr

/-- The module-level mutable state of `geminiService.ts`:
`let chatSession: Chat | null = null`. -/
structure GemState where
  chatSession : Option ChatSession
deriving DecidableEq, Repr

/-- `const instruction = systemInstruction || AGENTS[0].systemInstruction`:
a missing or empty (falsy) instruction falls back to the first agent's. -/
def resolveInstruction (systemInstruction : Option String) : String :=
  match systemInstruction with
  | some s => if s = "" then oryonSystemInstruction else s
  | none => oryonSystemInstruction

/-- `initializeChat(history = [], systemInstruction?)` of `geminiService.ts`:
replaces `chatSession` with a fresh session configured with the resolved
instruction and the given prior turns. -/
def initializeChat (history : List Content) (systemInstruction : Option String) : GemState :=
  { chatSession := some { systemInstruction := resolveInstruction systemInstruction,
                          history := history } }

/-- `resetChat()` of `geminiService.ts`: `chatSession = null; initializeChat([])`.
The transient null is unobservable; the net effect is a fresh default session. -/
def resetChat : GemState :=
  initializeChat [] none

/-- JavaScript `String.prototype.includes`, used by the retry error rewriting. -/
def jsIncludes (s sub : String) : Bool :=
  decide (List.IsInfix sub.data s.data)

/-- The message-payload construction of `sendMessageStream` (done identically on
the first attempt and on the retry): attachment part first, then the text part
if the text is non-empty, with an empty-text fallback when both are absent. -/
def buildParts (message : String) (attachment : Option Attachment) : List Part :=
  let parts : List Part :=
    (match attachment with
     | some a => [Part.inlineData a.data a.mimeType]
     | none => []) ++
    (if message ≠ "" then [Part.text message] else [])
  if parts = [] then [Part.text ""] else parts

/-- Record of one actual remote `sendMessageStream` call: the session it was
issued on and the payload parts sent. -/
structure SendAttempt where
  session : ChatSession
  parts : List Part
deriving DecidableEq, Repr

/-- Result of the service-level `sendMessageStream`: the stream it returns (or
the error it throws), the module state afterwards, and the log of remote calls
actually made (one, or two when the first threw). -/
structure SendResult where
  stream : Except String (List (Option String))
  state : GemState
  attempts : List SendAttempt
deriving Repr

/-- `sendMessageStream` of `geminiService.ts`.  `o1` and `o2` are the oracle
outcomes of the first and (if reached) second remote call: either a thrown
error message or the returned lazy chunk stream.  On a first-attempt throw the
session is reset and re-initialized from `currentHistory` and
`currentSystemInstruction`, the payload is rebuilt identically, and the send is
retried once; a retry error mentioning the API key or a 403 is rewritten. -/
def sendMessageStream (o1 o2 : Except String (List (Option String)))
    (message : String) (currentHistory : List Content)
    (currentSystemInstruction : Option String) (attachment : Option Attachment)
    (g : GemState) : SendResult :=
  let g1 := match g.chatSession with
    | none => initializeChat currentHistory currentSystemInstruction
    | some _ => g
  match g1.chatSession with
  | none =>
    { stream := Except.error "Failed to initialize chat session.", state := g1, attempts := [] }
  | some s1 =>
    let parts := buildParts message attachment
    match o1 with
    | Except.ok chunks =>
      { stream := Except.ok chunks, state := g1, attempts := [⟨s1, parts⟩] }
    | Except.error _ =>
      -- resetChat(); initializeChat(currentHistory, currentSystemInstruction)
      let g2 := initializeChat currentHistory currentSystemInstruction
      match g2.chatSession with
      | none =>
        { stream := Except.error "Failed to re-initialize chat session after error.",
          state := g2, attempts := [⟨s1, parts⟩] }
      | some s2 =>
        let parts2 := buildParts message attachment
        match o2 with
        | Except.ok chunks =>
          { stream := Except.ok chunks, state := g2, attempts := [⟨s1, parts⟩, ⟨s2, parts2⟩] }
        | Except.error m =>
          let msg := if jsIncludes m "API key" || jsIncludes m "403" then
              "API Key Invalid or Missing. Please check Vercel settings."
            else m
          { stream := Except.error msg, state := g2, attempts := [⟨s1, parts⟩, ⟨s2, parts2⟩] }

/-- Interface language codes (`LanguageCode` in `types.ts`). -/
inductive LanguageCode where
  | en
  | id
  | ja
  | es
  | fr
  | de
deriving DecidableEq, Repr

/-- The translation-table fields the Session & History Manager reads
(`TRANSLATIONS` in `utils/translations.ts`; the remaining fields are
presentation-only labels never consulted by the Manager). -/
structure Translation where
  aiWelcome : String
  aiClear : String
  errorGeneric : String
deriving DecidableEq, Repr

/-- Manager-relevant fields of `TRANSLATIONS.en`. -/
def TRANSLATIONS_en : Translation :=
  { aiWelcome := "systems online. Objective?", aiClear := "Memory cleared.",
    errorGeneric := "System Error." }

/-- Manager-relevant fields of `TRANSLATIONS.id`. -/
def TRANSLATIONS_id : Translation :=
  { aiWelcome := "sistem online. Tujuan?", aiClear := "Memori dibersihkan.",
    errorGeneric := "Error." }

/-- `getTranslation`: `TRANSLATIONS[lang] || TRANSLATIONS['en']` — the table
only has `en` and `id` keys, every other code falls back to English. -/
def getTranslation : LanguageCode → Translation
  | LanguageCode.id => TRANSLATIONS_id
  | _ => TRANSLATIONS_en

/-- `getSystemLanguageInstruction` of `utils/translations.ts`. -/
def getSystemLanguageInstruction (lang : LanguageCode) : String :=
  match lang with
  | LanguageCode.id =>
    "\n\n**IMPORTANT INSTRUCTION: From now on, you MUST reply strictly in INDONESIAN (BAHASA INDONESIA). Gunakan bahasa Indonesia yang asik, santai, tapi tetap rapi.**"
  | _ =>
    "\n\n**IMPORTANT INSTRUCTION: From now on, you MUST reply strictly in ENGLISH.**"

/-- `getFullSystemInstruction` of the App: agent instruction plus language directive. -/
def getFullSystemInstruction (agentInstruction : String) (lang : LanguageCode) : String :=
  agentInstruction ++ getSystemLanguageInstruction lang

/-- Authenticated user handle (the fields of `User` the Manager reads). -/
structure User where
  username : String
  displayName : String
deriving DecidableEq, Repr

/-- The per-user history store: `Record<string, Message[]>` mapping agent id to
message sequence, modelled as an association list (a JS object has no
duplicate keys). -/
abbrev HistoryStore := List (String × List Message)

/-- JS object property lookup `store[k]` (returns `undefined` when absent). -/
def storeGet : HistoryStore → String → Option (List Message)
  | [], _ => none
  | p :: rest, k => if p.1 = k then some p.2 else storeGet rest k

/-- JS object spread update `{...store, [k]: v}`: replaces the binding of `k`
in place if present, otherwise appends it. -/
def storeSet : HistoryStore → String → List Message → HistoryStore
  | [], k, v => [(k, v)]
  | p :: rest, k, v => if p.1 = k then (k, v) :: rest else p :: storeSet rest k v

/-- The React state of the App component relevant to the Manager, plus the
persisted copy of the current user's store (the `localStorage` blob under
`oryon_multi_agent_memory_<username>`). -/
structure AppState where
  currentUser : Option User
  currentLanguage : LanguageCode
  messages : List Message
  historyStore : HistoryStore
  isLoading : Bool
  error : Option String
  isMemoryLoaded : Bool
  currentAgent : Agent
  gem : GemState
  localStorage : HistoryStore
deriving DecidableEq, Repr

/-- The payload parts reconstructed from one stored message when seeding a
remote session: inline attachment (if present) then the text (if non-empty). -/
def messagePayloadParts (m : Message) : List Part :=
  (match m.attachment with
   | some a => [Part.inlineData a.data a.mimeType]
   | none => []) ++
  (if m.text ≠ "" then [Part.text m.text] else [])

/-- The `validHistory` / `historyContext` construction shared by
`initializeGeminiWithHistory` and `handleChatFlow`: keep messages of type
`'text'` that are not mid-stream, rebuild their parts, and drop messages
whose parts come out empty, preserving order. -/
def buildValidHistory (msgs : List Message) : List Content :=
  msgs.filterMap (fun m =>
    if m.type = some MsgType.text ∧ m.isStreaming = false then
      let parts := messagePayloadParts m
      if parts ≠ [] then some { role := m.role, parts := parts } else none
    else none)

/-- `initializeGeminiWithHistory(msgs, instruction)` of the App: `resetChat()`
followed by `initializeChat(validHistory, instruction)` (the reset's transient
default session is immediately overwritten). -/
def initializeGeminiWithHistory (msgs : List Message) (instruction : String)
    (st : AppState) : AppState :=
  { st with gem := initializeChat (buildValidHistory msgs) (some instruction) }

/-- `messages[messages.length - 1]` is streaming (the save-memory effect's
guard `lastMsg && lastMsg.isStreaming`). -/
def lastMessageStreaming (msgs : List Message) : Bool :=
  match msgs.getLast? with
  | some m => m.isStreaming
  | none => false

/-- The save-memory `useEffect` of the App: when a user is present and memory
is loaded, and the last message is not mid-stream, overwrite the current
agent's entry in the store with the in-memory sequence and persist the whole
store; otherwise do nothing. -/
def saveMemoryEffect (st : AppState) : AppState :=
  if st.currentUser.isSome ∧ st.isMemoryLoaded = true then
    if lastMessageStreaming st.messages then st
    else
      let updatedStore := storeSet st.historyStore st.currentAgent.id st.messages
      { st with historyStore := updatedStore, localStorage := updatedStore }
  else st

/-- The welcome message synthesized by `setInitialWelcome`. -/
def mkWelcomeMessage (freshId : String) (now : Nat) (name : String) (agent : Agent)
    (lang : LanguageCode) : Message :=
  { id := "welcome-" ++ freshId, role := Role.model,
    text := "Hello " ++ name ++ ", " ++ agent.name ++ " " ++ (getTranslation lang).aiWelcome,
    timestamp := now, isStreaming := false, type := some MsgType.text }

/-- `setInitialWelcome(name, agent)` of the App: replace the sequence with one
synthesized welcome message and initialize a fresh remote session with no
prior turns and the agent's full instruction. -/
def setInitialWelcome (freshId : String) (now : Nat) (name : String) (agent : Agent)
    (st : AppState) : AppState :=
  { st with
    messages := [mkWelcomeMessage freshId now name agent st.currentLanguage],
    gem := initializeChat []
      (some (getFullSystemInstruction agent.systemInstruction st.currentLanguage)) }

/-- `handleAgentChange(newAgent)` of the App: no-op on the same agent id;
otherwise force-save the current sequence into the store (and to persistent
storage when a user is present), load the new agent's sequence (empty default),
switch the active agent, rehydrate the remote session, and synthesize a
welcome message when the loaded sequence is empty. -/
def handleAgentChange (newAgent : Agent) (freshId : String) (now : Nat)
    (st : AppState) : AppState :=
  if newAgent.id = st.currentAgent.id then st
  else
    let updatedStore := storeSet st.historyStore st.currentAgent.id st.messages
    let st1 := { st with
      historyStore := updatedStore,
      localStorage := if st.currentUser.isSome then updatedStore else st.localStorage }
    let nextMessages := (storeGet updatedStore newAgent.id).getD []
    let st2 := { st1 with currentAgent := newAgent, messages := nextMessages }
    let st3 := initializeGeminiWithHistory nextMessages
      (getFullSystemInstruction newAgent.systemInstruction st.currentLanguage) st2
    if nextMessages = [] then
      setInitialWelcome freshId now
        ((st.currentUser.map User.displayName).getD "User") newAgent st3
    else st3

/-- The synthesized "history cleared" message of `handleClearChat`. -/
def mkClearMessage (freshId : String) (now : Nat) (lang : LanguageCode) : Message :=
  { id := freshId, role := Role.model, text := (getTranslation lang).aiClear,
    timestamp := now, type := some MsgType.text }

/-- `handleClearChat` of the App: guard on a user being present; discard the
remote session; reset the current agent's store entry to empty and persist;
replace the in-memory sequence with a single synthesized cleared message;
clear the error. -/
def handleClearChat (freshId : String) (now : Nat) (st : AppState) : AppState :=
  match st.currentUser with
  | none => st
  | some _ =>
    let updatedStore := storeSet st.historyStore st.currentAgent.id []
    { st with
      gem := resetChat,
      historyStore := updatedStore,
      localStorage := updatedStore,
      messages := [mkClearMessage freshId now st.currentLanguage],
      error := none }

/-- Whether the stop flag is observed set at fragment-loop iteration `i`:
`stopAt = some n` means the user's stop request lands before iteration `n`
(the flag, once set, stays set for the rest of the loop). -/
def stopObserved (stopAt : Option Nat) (i : Nat) : Bool :=
  match stopAt with
  | some n => n ≤ i
  | none => false

/-- The fragment-consumption loop of `handleChatFlow`: at each iteration the
stop flag is polled first (breaking the loop when set), then a truthy chunk
text is appended to the accumulator. -/
def consumeChunks (stopAt : Option Nat) : List (Option String) → Nat → String → String
  | [], _, acc => acc
  | c :: rest, i, acc =>
    if stopObserved stopAt i then acc
    else
      match c with
      | some t => if t ≠ "" then consumeChunks stopAt rest (i + 1) (acc ++ t)
                  else consumeChunks stopAt rest (i + 1) acc
      | none => consumeChunks stopAt rest (i + 1) acc

/-- Concatenation, in yield order, of all text fragments of a stream (an
absent or empty chunk text contributes nothing). -/
def chunkConcat : List (Option String) → String
  | [] => ""
  | c :: rest => c.getD "" ++ chunkConcat rest

/-- One `setMessages` merge step of the fragment loop: overwrite the text of
the message with the placeholder's id by the current accumulator. -/
def applyText (aiMessageId : String) (accumulated : String) (msgs : List Message) :
    List Message :=
  msgs.map (fun msg => if msg.id = aiMessageId then { msg with text := accumulated } else msg)

/-- The post-loop `setMessages`: flip the placeholder's `isStreaming` to false. -/
def applyStreamingDone (aiMessageId : String) (msgs : List Message) : List Message :=
  msgs.map (fun msg => if msg.id = aiMessageId then { msg with isStreaming := false } else msg)

/-- The user message appended by `handleSendMessage`. -/
def mkUserMessage (text : String) (attachment : Option Attachment) (id : String)
    (now : Nat) : Message :=
  { id := id, role := Role.user, text := text, timestamp := now,
    type := some MsgType.text, attachment := attachment }

/-- The streaming placeholder assistant message appended by `handleChatFlow`. -/
def mkAiPlaceholder (aiMessageId : String) (now : Nat) : Message :=
  { id := aiMessageId, role := Role.model, text := "", timestamp := now,
    isStreaming := true, type := some MsgType.text }

/-- Outcome of `handleChatFlow`: the state it leaves behind, the error it
propagates (if the service-level send threw), and the remote-call log. -/
structure FlowOutcome where
  state : AppState
  thrown : Option String
  attempts : List SendAttempt
deriving Repr

/-- `handleChatFlow(text, aiMessageId, attachment)` of the App.  `snapshot` is
the (stale) `messages` closure value — the sequence as it was before this
exchange's user message was appended — from which the contextual history is
built; the `setMessages` updater calls act on the live state `st`. -/
def handleChatFlow (snapshot : List Message) (text : String) (aiMessageId : String)
    (attachment : Option Attachment) (now : Nat)
    (o1 o2 : Except String (List (Option String))) (stopAt : Option Nat)
    (st : AppState) : FlowOutcome :=
  let st1 := { st with messages := st.messages ++ [mkAiPlaceholder aiMessageId now] }
  let historyContext := buildValidHistory snapshot
  let res := sendMessageStream o1 o2 text historyContext
    (some (getFullSystemInstruction st.currentAgent.systemInstruction st.currentLanguage))
    attachment st.gem
  let st2 := { st1 with gem := res.state }
  match res.stream with
  | Except.error e => { state := st2, thrown := some e, attempts := res.attempts }
  | Except.ok chunks =>
    let accumulated := consumeChunks stopAt chunks 0 ""
    let st3 := { st2 with messages := applyText aiMessageId accumulated st2.messages }
    let st4 := { st3 with messages := applyStreamingDone aiMessageId st3.messages }
    { state := st4, thrown := none, attempts := res.attempts }

/-- Outcome of `handleSendMessage`: final state plus the remote-call log. -/
structure SendOutcome where
  state : AppState
  attempts : List SendAttempt
deriving Repr

/-- `handleSendMessage(text, attachment)` of the App: clear the error, append
the user message, run the chat flow (whose `messages` closure is the
pre-append sequence), and on a propagated error surface it (falling back to
the generic translation when the message is empty/falsy) and drop every
message still marked streaming. -/
def handleSendMessage (text : String) (attachment : Option Attachment)
    (userMsgId aiMessageId : String) (now : Nat)
    (o1 o2 : Except String (List (Option String))) (stopAt : Option Nat)
    (st : AppState) : SendOutcome :=
  let st0 := { st with error := none }
  let st1 := { st0 with
    messages := st0.messages ++ [mkUserMessage text attachment userMsgId now],
    isLoading := true }
  let flow := handleChatFlow st.messages text aiMessageId attachment now o1 o2 stopAt st1
  match flow.thrown with
  | none => { state := { flow.state with isLoading := false }, attempts := flow.attempts }
  | some e =>
    let errMsg := if e = "" then (getTranslation st.currentLanguage).errorGeneric else e
    { state := { flow.state with
        error := some errMsg,
        messages := flow.state.messages.filter (fun m => !m.isStreaming),
        isLoading := false },
      attempts := flow.attempts }

/-- `handleStopGeneration` of the App: sets the stop flag (modelled by the
`stopAt` oracle of an in-flight `handleChatFlow`) and clears the loading flag. -/
def handleStopGeneration (st : AppState) : AppState :=
  { st with isLoading := false }

/-- The streaming invariant of the spec's data model: at most one message of a
sequence is mid-stream, and if one is, it is the most recently appended
message — equivalently, every message except possibly the last is settled. -/
def streamingInvariant (msgs : List Message) : Prop :=
  ∀ m ∈ msgs.dropLast, m.isStreaming = false

instance (msgs : List Message) : Decidable (streamingInvariant msgs) := by
  unfold streamingInvariant; infer_instance

/-! ### Helper lemmas about the embedded operations -/

theorem consumeChunks_none_eq (chunks : List (Option String)) :
    ∀ (i : Nat) (acc : String),
      consumeChunks none chunks i acc = acc ++ chunkConcat chunks := by
  induction chunks with
  | nil => intro i acc; simp [consumeChunks, chunkConcat, String.append_empty]
  | cons c rest ih =>
    intro i acc
    cases c with
    | none =>
      simp [consumeChunks, stopObserved, chunkConcat, ih, String.empty_append]
    | some t =>
      by_cases h : t = ""
      · subst h
        simp [consumeChunks, stopObserved, chunkConcat, ih, String.empty_append]
      · simp [consumeChunks, stopObserved, chunkConcat, h, ih, String.append_assoc]

theorem consumeChunks_some_eq (n : Nat) (chunks : List (Option String)) :
    ∀ (i : Nat) (acc : String),
      consumeChunks (some n) chunks i acc = acc ++ chunkConcat (chunks.take (n - i)) := by
  induction chunks with
  | nil => intro i acc; simp [consumeChunks, chunkConcat, String.append_empty]
  | cons c rest ih =>
    intro i acc
    by_cases hstop : n ≤ i
    · have h0 : n - i = 0 := by omega
      simp [consumeChunks, stopObserved, hstop, h0, chunkConcat, String.append_empty]
    · have hpos : n - i = (n - (i + 1)) + 1 := by omega
      rw [hpos]
      cases c with
      | none =>
        simp [consumeChunks, stopObserved, hstop, chunkConcat, ih, String.empty_append]
      | some t =>
        by_cases h : t = ""
        · subst h
          simp [consumeChunks, stopObserved, hstop, chunkConcat, ih, String.empty_append]
        · simp [consumeChunks, stopObserved, hstop, chunkConcat, h, ih, String.append_assoc]

theorem applyText_append (aId s : String) (l1 l2 : List Message) :
    applyText aId s (l1 ++ l2) = applyText aId s l1 ++ applyText aId s l2 :=
  List.map_append _ l1 l2

theorem applyStreamingDone_append (aId : String) (l1 l2 : List Message) :
    applyStreamingDone aId (l1 ++ l2) = applyStreamingDone aId l1 ++ applyStreamingDone aId l2 :=
  List.map_append _ l1 l2

theorem applyText_of_not_mem (aId s : String) :
    ∀ (msgs : List Message), (∀ m ∈ msgs, m.id ≠ aId) → applyText aId s msgs = msgs := by
  intro msgs
  induction msgs with
  | nil => intro _; rfl
  | cons m rest ih =>
    intro h
    have hm : m.id ≠ aId := h m (by simp)
    have hr := ih (fun x hx => h x (by simp [hx]))
    simp [applyText, hm] at hr ⊢
    exact hr

theorem applyStreamingDone_of_not_mem (aId : String) :
    ∀ (msgs : List Message), (∀ m ∈ msgs, m.id ≠ aId) →
      applyStreamingDone aId msgs = msgs := by
  intro msgs
  induction msgs with
  | nil => intro _; rfl
  | cons m rest ih =>
    intro h
    have hm : m.id ≠ aId := h m (by simp)
    have hr := ih (fun x hx => h x (by simp [hx]))
    simp [applyStreamingDone, hm] at hr ⊢
    exact hr

theorem storeGet_storeSet_self (s : HistoryStore) (k : String) (v : List Message) :
    storeGet (storeSet s k v) k = some v := by
  induction s with
  | nil => simp [storeSet, storeGet]
  | cons p rest ih =>
    by_cases h : p.1 = k
    · simp [storeSet, storeGet, h]
    · simp [storeSet, storeGet, h, ih]

theorem storeGet_storeSet_other (s : HistoryStore) (k k' : String) (v : List Message)
    (h : k' ≠ k) : storeGet (storeSet s k v) k' = storeGet s k' := by
  induction s with
  | nil => simp [storeSet, storeGet, Ne.symm h]
  | cons p rest ih =>
    by_cases hp : p.1 = k
    · simp [storeSet, storeGet, hp, Ne.symm h]
    · simp [storeSet, storeGet, hp, ih]

theorem sendMessageStream_ok_stream (o2 : Except String (List (Option String)))
    (msg : String) (hist : List Content) (instr : Option String)
    (att : Option Attachment) (g : GemState) (chunks : List (Option String)) :
    (sendMessageStream (Except.ok chunks) o2 msg hist instr att g).stream
      = Except.ok chunks := by
  cases hg : g.chatSession with
  | none => simp [sendMessageStream, hg, initializeChat]
  | some s => simp [sendMessageStream, hg]

theorem handleSendMessage_ok_messages (text : String) (att : Option Attachment)
    (uId aId : String) (now : Nat) (o2 : Except String (List (Option String)))
    (stopAt : Option Nat) (st : AppState) (chunks : List (Option String)) :
    (handleSendMessage text att uId aId now (Except.ok chunks) o2 stopAt st).state.messages
      = applyStreamingDone aId (applyText aId (consumeChunks stopAt chunks 0 "")
          ((st.messages ++ [mkUserMessage text att uId now]) ++ [mkAiPlaceholder aId now])) := by
  cases hg : st.gem.chatSession with
  | none => simp [handleSendMessage, handleChatFlow, sendMessageStream, hg, initializeChat]
  | some s => simp [handleSendMessage, handleChatFlow, sendMessageStream, hg]

theorem handleSendMessage_retry_messages (text : String) (att : Option Attachment)
    (uId aId : String) (now : Nat) (e : String) (stopAt : Option Nat) (st : AppState)
    (chunks : List (Option String)) :
    (handleSendMessage text att uId aId now (Except.error e) (Except.ok chunks) stopAt st).state.messages
      = applyStreamingDone aId (applyText aId (consumeChunks stopAt chunks 0 "")
          ((st.messages ++ [mkUserMessage text att uId now]) ++ [mkAiPlaceholder aId now])) := by
  cases hg : st.gem.chatSession with
  | none => simp [handleSendMessage, handleChatFlow, sendMessageStream, hg, initializeChat]
  | some s => simp [handleSendMessage, handleChatFlow, sendMessageStream, hg, initializeChat]

theorem handleSendMessage_retry_attempts (text : String) (att : Option Attachment)
    (uId aId : String) (now : Nat) (e : String) (stopAt : Option Nat) (st : AppState)
    (chunks : List (Option String)) :
    (handleSendMessage text att uId aId now (Except.error e) (Except.ok chunks) stopAt st).attempts
      = [ { session := (match st.gem.chatSession with
              | some s => s
              | none =>
                { systemInstruction := resolveInstruction (some (getFullSystemInstruction
                    st.currentAgent.systemInstruction st.currentLanguage)),
                  history := buildValidHistory st.messages }),
            parts := buildParts text att },
          { session :=
              { systemInstruction := resolveInstruction (some (getFullSystemInstruction
                  st.currentAgent.systemInstruction st.currentLanguage)),
                history := buildValidHistory st.messages },
            parts := buildParts text att } ] := by
  cases hg : st.gem.chatSession with
  | none => simp [handleSendMessage, handleChatFlow, sendMessageStream, hg, initializeChat]
  | some s => simp [handleSendMessage, handleChatFlow, sendMessageStream, hg, initializeChat]

theorem handleSendMessage_preserves (text : String) (att : Option Attachment)
    (uId aId : String) (now : Nat) (o1 o2 : Except String (List (Option String)))
    (stopAt : Option Nat) (st : AppState) :
    (handleSendMessage text att uId aId now o1 o2 stopAt st).state.currentUser = st.currentUser
    ∧ (handleSendMessage text att uId aId now o1 o2 stopAt st).state.isMemoryLoaded
        = st.isMemoryLoaded
    ∧ (handleSendMessage text att uId aId now o1 o2 stopAt st).state.currentAgent
        = st.currentAgent
    ∧ (handleSendMessage text att uId aId now o1 o2 stopAt st).state.historyStore
        = st.historyStore
    ∧ (handleSendMessage text att uId aId now o1 o2 stopAt st).state.localStorage
        = st.localStorage := by
  cases hg : st.gem.chatSession <;> cases o1 <;> cases o2 <;>
    simp [handleSendMessage, handleChatFlow, sendMessageStream, hg, initializeChat]

theorem applyOps_eval (aId s text : String) (att : Option Attachment) (uId : String)
    (now : Nat) (A : List Message)
    (hFresh : ∀ m ∈ A, m.id ≠ aId) (hne : uId ≠ aId) :
    applyStreamingDone aId (applyText aId s
        ((A ++ [mkUserMessage text att uId now]) ++ [mkAiPlaceholder aId now]))
      = A ++ [mkUserMessage text att uId now,
          { mkAiPlaceholder aId now with text := s, isStreaming := false }] := by
  rw [applyText_append, applyText_append, applyStreamingDone_append, applyStreamingDone_append,
    applyText_of_not_mem aId _ A hFresh, applyStreamingDone_of_not_mem aId A hFresh]
  simp [applyText, applyStreamingDone, mkUserMessage, mkAiPlaceholder, hne]

/-- Spec-side characterization of the turns kept when rehydrating: complete
(not mid-stream), of kind "text", and yielding at least one payload part
(an attachment, or non-empty text). -/
def keptInHistory (m : Message) : Bool :=
  decide (m.type = some MsgType.text ∧ m.isStreaming = false
    ∧ (m.attachment.isSome = true ∨ m.text ≠ ""))

theorem messagePayloadParts_eq_nil_iff (m : Message) :
    messagePayloadParts m = [] ↔ m.attachment = none ∧ m.text = "" := by
  cases ha : m.attachment <;> by_cases ht : m.text = "" <;>
    simp [messagePayloadParts, ha, ht]

theorem buildValidHistory_eq_filter (msgs : List Message) :
    buildValidHistory msgs = (msgs.filter keptInHistory).map
      (fun m => { role := m.role, parts := messagePayloadParts m : Content }) := by
  induction msgs with
  | nil => rfl
  | cons m rest ih =>
    simp only [buildValidHistory] at ih ⊢
    rw [List.filterMap_cons, List.filter_cons]
    by_cases h1 : m.type = some MsgType.text ∧ m.isStreaming = false
    · by_cases h2 : messagePayloadParts m = []
      · have hkf : keptInHistory m = false := by
          have hno : ¬ (m.attachment.isSome = true ∨ m.text ≠ "") := by
            rw [messagePayloadParts_eq_nil_iff] at h2
            simp [h2.1, h2.2]
          simp [keptInHistory, hno]
        simp [h1, h2, hkf]
        simpa using ih
      · have hkt : keptInHistory m = true := by
          have hor : m.attachment.isSome = true ∨ m.text ≠ "" := by
            by_contra hc
            push_neg at hc
            apply h2
            rw [messagePayloadParts_eq_nil_iff]
            refine ⟨?_, hc.2⟩
            cases ha : m.attachment with
            | none => rfl
            | some a => exact absurd (by simp [ha]) hc.1
          simp [keptInHistory, h1.1, h1.2, hor]
        simp [h1, h2, hkt]
        simpa using ih
    · have hkf : keptInHistory m = false := by
        simp only [keptInHistory, decide_eq_false_iff_not]
        intro hcontra
        exact h1 ⟨hcontra.1, hcontra.2.1⟩
      simp [h1, hkf]
      simpa using ih

theorem resolveInstruction_some_of_ne (s : String) (h : s ≠ "") :
    resolveInstruction (some s) = s := by
  simp [resolveInstruction, h]

theorem getFullSystemInstruction_ne_empty (i : String) (lang : LanguageCode) :
    getFullSystemInstruction i lang ≠ "" := by
  intro h
  have hlen := congrArg String.length h
  rw [getFullSystemInstruction, String.length_append] at hlen
  have hl : 0 < (getSystemLanguageInstruction lang).length := by
    cases lang <;> decide
  have hz : ("" : String).length = 0 := by decide
  omega

/-! ### Shared concrete test fixtures (used by witnesses and counterexamples) -/

def testUser : User := { username := "maria", displayName := "Maria" }

def testAgentA : Agent :=
  { id := "agentA", name := "Alpha", role := "General", description := "test agent A",
    themeColor := "text-cyber-accent", iconId := "cpu", systemInstruction := "be helpful" }

def testAgentB : Agent :=
  { id := "agentB", name := "Beta", role := "Coding", description := "test agent B",
    themeColor := "text-green-400", iconId := "terminal", systemInstruction := "be precise" }

/-- A settled welcome-style message used as pre-existing history in tests. -/
def testMsg0 : Message :=
  { id := "w0", role := Role.model, text := "welcome", timestamp := 0,
    isStreaming := false, type := some MsgType.text }

/-- A concrete settled state: user present, memory loaded, one settled message. -/
def testState : AppState :=
  { currentUser := some testUser, currentLanguage := LanguageCode.en,
    messages := [testMsg0], historyStore := [], isLoading := false, error := none,
    isMemoryLoaded := true, currentAgent := testAgentA,
    gem := { chatSession := none }, localStorage := [] }

/-! ### Claim theorems -/

/-- C3: for every send that runs to stream exhaustion without cancellation and
without error, the final assistant message's text equals the concatenation, in
yield order, of all text fragments produced by the stream (no fragment dropped
or duplicated), and its `isStreaming` flag is false at the end; the rest of
the sequence is the prior sequence followed by the user's message. -/
theorem send_completed_concatenates_fragments
    (st : AppState) (text : String) (att : Option Attachment)
    (uId aId : String) (now : Nat) (chunks : List (Option String))
    (o2 : Except String (List (Option String)))
    (hFresh : ∀ m ∈ st.messages, m.id ≠ aId) (hne : uId ≠ aId) :
    (handleSendMessage text att uId aId now (Except.ok chunks) o2 none st).state.messages
      = st.messages ++ [mkUserMessage text att uId now,
          { mkAiPlaceholder aId now with text := chunkConcat chunks, isStreaming := false }] := by
  rw [handleSendMessage_ok_messages, consumeChunks_none_eq, String.empty_append,
    applyOps_eval aId _ text att uId now st.messages hFresh hne]

/-- Witness for C3 at a concrete input ("Hello" answered by "Hi", " there"). -/
theorem send_completed_concatenates_fragments_witness :
    ((∀ m ∈ testState.messages, m.id ≠ "a1") ∧ ("u1" : String) ≠ "a1")
    ∧ (handleSendMessage "Hello" none "u1" "a1" 5
          (Except.ok [some "Hi", some " there"]) (Except.ok []) none testState).state.messages
        = testState.messages ++ [mkUserMessage "Hello" none "u1" 5,
            { mkAiPlaceholder "a1" 5 with
                text := chunkConcat [some "Hi", some " there"], isStreaming := false }] :=
  ⟨⟨by decide, by decide⟩,
    send_completed_concatenates_fragments testState "Hello" none "u1" "a1" 5
      [some "Hi", some " there"] (Except.ok []) (by decide) (by decide)⟩

/-- C8: rehydration seeds the new remote session with exactly the complete,
text-kind, payload-yielding messages of the sequence, in original order, and
the computation is deterministic — it depends only on the sequence, the agent
instruction and the language, not on the prior state, so two successive calls
seed identical turns. -/
theorem rehydrate_filters_and_deterministic
    (msgs : List Message) (agent : Agent) (lang : LanguageCode) (st st' : AppState) :
    (initializeGeminiWithHistory msgs
        (getFullSystemInstruction agent.systemInstruction lang) st).gem.chatSession
      = some { systemInstruction := getFullSystemInstruction agent.systemInstruction lang,
               history := (msgs.filter keptInHistory).map
                 (fun m => { role := m.role, parts := messagePayloadParts m : Content }) }
    ∧ (initializeGeminiWithHistory msgs
          (getFullSystemInstruction agent.systemInstruction lang) st).gem
        = (initializeGeminiWithHistory msgs
            (getFullSystemInstruction agent.systemInstruction lang) st').gem := by
  constructor
  · simp [initializeGeminiWithHistory, initializeChat,
      resolveInstruction_some_of_ne _ (getFullSystemInstruction_ne_empty _ _),
      buildValidHistory_eq_filter]
  · rfl

theorem handleSendMessage_err_eval (text : String) (att : Option Attachment)
    (uId aId : String) (now : Nat) (stopAt : Option Nat) (st : AppState) (e1 e2 : String) :
    (handleSendMessage text att uId aId now (Except.error e1) (Except.error e2) stopAt st).state.messages
      = ((st.messages ++ [mkUserMessage text att uId now])
          ++ [mkAiPlaceholder aId now]).filter (fun m => !m.isStreaming)
    ∧ (handleSendMessage text att uId aId now
        (Except.error e1) (Except.error e2) stopAt st).state.error.isSome = true := by
  cases hg : st.gem.chatSession with
  | none => simp [handleSendMessage, handleChatFlow, sendMessageStream, hg, initializeChat]
  | some s => simp [handleSendMessage, handleChatFlow, sendMessageStream, hg, initializeChat]

theorem saveMemoryEffect_writes (st : AppState)
    (hU : st.currentUser.isSome = true) (hL : st.isMemoryLoaded = true)
    (hlast : lastMessageStreaming st.messages = false) :
    (saveMemoryEffect st).localStorage = storeSet st.historyStore st.currentAgent.id st.messages
    ∧ (saveMemoryEffect st).messages = st.messages := by
  simp [saveMemoryEffect, hU, hL, hlast]

/-- C7: if stop is requested while a response streams, cancellation is observed
at fragment granularity: the resulting assistant message ends not streaming,
its text is exactly the concatenation of the fragments consumed strictly
before the stop flag was observed (the first `n` loop iterations), and no
later fragment is ever applied to it. -/
theorem stop_cancels_at_fragment_granularity
    (st : AppState) (text : String) (att : Option Attachment)
    (uId aId : String) (now : Nat) (chunks : List (Option String))
    (o2 : Except String (List (Option String))) (n : Nat)
    (hFresh : ∀ m ∈ st.messages, m.id ≠ aId) (hne : uId ≠ aId) :
    (handleSendMessage text att uId aId now (Except.ok chunks) o2 (some n) st).state.messages
      = st.messages ++ [mkUserMessage text att uId now,
          { mkAiPlaceholder aId now with
              text := chunkConcat (chunks.take n), isStreaming := false }] := by
  rw [handleSendMessage_ok_messages, consumeChunks_some_eq, String.empty_append, Nat.sub_zero,
    applyOps_eval aId _ text att uId now st.messages hFresh hne]

/-- Witness for C7: stop observed before the third fragment of a four-fragment
stream keeps exactly the first two fragments. -/
theorem stop_cancels_at_fragment_granularity_witness :
    ((∀ m ∈ testState.messages, m.id ≠ "a1") ∧ ("u1" : String) ≠ "a1")
    ∧ (handleSendMessage "Hello" none "u1" "a1" 5
          (Except.ok [some "A", some "B", some "C", some "D"]) (Except.ok [])
          (some 2) testState).state.messages
        = testState.messages ++ [mkUserMessage "Hello" none "u1" 5,
            { mkAiPlaceholder "a1" 5 with
                text := chunkConcat ([some "A", some "B", some "C", some "D"].take 2),
                isStreaming := false }] :=
  ⟨⟨by decide, by decide⟩,
    stop_cancels_at_fragment_granularity testState "Hello" none "u1" "a1" 5
      [some "A", some "B", some "C", some "D"] (Except.ok []) 2 (by decide) (by decide)⟩

/-- C6: when a send fails and the single automatic retry also fails, the
streaming placeholder is removed from the sequence, an error is surfaced to
the caller, and the user's own submitted message remains exactly once. -/
theorem retry_failure_surfaces_error_keeps_user_message
    (st : AppState) (text : String) (att : Option Attachment)
    (uId aId : String) (now : Nat) (e1 e2 : String) (stopAt : Option Nat)
    (hSettled : ∀ m ∈ st.messages, m.isStreaming = false)
    (hFreshU : ∀ m ∈ st.messages, m.id ≠ uId) :
    (handleSendMessage text att uId aId now
        (Except.error e1) (Except.error e2) stopAt st).state.messages
      = st.messages ++ [mkUserMessage text att uId now]
    ∧ (handleSendMessage text att uId aId now
        (Except.error e1) (Except.error e2) stopAt st).state.error.isSome = true
    ∧ (handleSendMessage text att uId aId now
        (Except.error e1) (Except.error e2) stopAt st).state.messages.countP
          (fun m => m.id = uId) = 1
    ∧ ∀ m ∈ (handleSendMessage text att uId aId now
        (Except.error e1) (Except.error e2) stopAt st).state.messages,
        m.isStreaming = false := by
  obtain ⟨hmsgs0, herr⟩ := handleSendMessage_err_eval text att uId aId now stopAt st e1 e2
  have hmsgs : (handleSendMessage text att uId aId now
      (Except.error e1) (Except.error e2) stopAt st).state.messages
      = st.messages ++ [mkUserMessage text att uId now] := by
    rw [hmsgs0, List.filter_append, List.filter_append]
    have h1 : st.messages.filter (fun m => !m.isStreaming) = st.messages :=
      List.filter_eq_self.mpr (fun m hm => by simp [hSettled m hm])
    rw [h1]
    simp [mkUserMessage, mkAiPlaceholder]
  refine ⟨hmsgs, herr, ?_, ?_⟩
  · rw [hmsgs, List.countP_append]
    have h0 : st.messages.countP (fun m => decide (m.id = uId)) = 0 := by
      rw [List.countP_eq_zero]
      intro m hm
      simp [hFreshU m hm]
    rw [h0]
    simp [List.countP_cons, mkUserMessage]
  · rw [hmsgs]
    intro m hm
    rcases List.mem_append.mp hm with h | h
    · exact hSettled m h
    · simp at h
      simp [h, mkUserMessage]

/-- Witness for C6: both attempts throw; the user's message survives alone,
the placeholder is gone, and an error is surfaced. -/
theorem retry_failure_surfaces_error_keeps_user_message_witness :
    ((∀ m ∈ testState.messages, m.isStreaming = false)
      ∧ (∀ m ∈ testState.messages, m.id ≠ "u1"))
    ∧ (handleSendMessage "Hello" none "u1" "a1" 5
          (Except.error "boom") (Except.error "quota") none testState).state.messages
        = testState.messages ++ [mkUserMessage "Hello" none "u1" 5]
    ∧ (handleSendMessage "Hello" none "u1" "a1" 5
          (Except.error "boom") (Except.error "quota") none testState).state.error.isSome = true :=
  ⟨⟨by decide, by decide⟩,
    (retry_failure_surfaces_error_keeps_user_message testState "Hello" none "u1" "a1" 5
        "boom" "quota" none (by decide) (by decide)).1,
    (retry_failure_surfaces_error_keeps_user_message testState "Hello" none "u1" "a1" 5
        "boom" "quota" none (by decide) (by decide)).2.1⟩

/-- C1: if the first streaming send throws and the second succeeds, exactly one
retry happens — the recreated session is seeded from the pre-exchange history
and the same instruction, and the same payload is resent — and the final
sequence is the prior history plus the user's message (once) plus exactly one
settled assistant message holding the second attempt's content; that settled
sequence is what the subsequent persistence step writes. -/
theorem first_send_throws_single_retry_succeeds
    (st : AppState) (text : String) (att : Option Attachment)
    (uId aId : String) (now : Nat) (e : String) (chunks : List (Option String))
    (hFreshA : ∀ m ∈ st.messages, m.id ≠ aId)
    (hFreshU : ∀ m ∈ st.messages, m.id ≠ uId)
    (hne : uId ≠ aId)
    (hSettled : ∀ m ∈ st.messages, m.isStreaming = false)
    (hUser : st.currentUser.isSome = true)
    (hLoaded : st.isMemoryLoaded = true) :
    (handleSendMessage text att uId aId now (Except.error e) (Except.ok chunks) none st).attempts.length = 2
    ∧ (∀ a ∈ (handleSendMessage text att uId aId now
          (Except.error e) (Except.ok chunks) none st).attempts, a.parts = buildParts text att)
    ∧ (handleSendMessage text att uId aId now
        (Except.error e) (Except.ok chunks) none st).attempts.getLast?
        = some ⟨⟨getFullSystemInstruction st.currentAgent.systemInstruction st.currentLanguage,
                 buildValidHistory st.messages⟩, buildParts text att⟩
    ∧ (handleSendMessage text att uId aId now
        (Except.error e) (Except.ok chunks) none st).state.messages
        = st.messages ++ [mkUserMessage text att uId now,
            { mkAiPlaceholder aId now with text := chunkConcat chunks, isStreaming := false }]
    ∧ (handleSendMessage text att uId aId now
        (Except.error e) (Except.ok chunks) none st).state.messages.countP
          (fun m => m.id = uId) = 1
    ∧ (∀ m ∈ (handleSendMessage text att uId aId now
        (Except.error e) (Except.ok chunks) none st).state.messages, m.isStreaming = false)
    ∧ storeGet (saveMemoryEffect (handleSendMessage text att uId aId now
          (Except.error e) (Except.ok chunks) none st).state).localStorage st.currentAgent.id
        = some (st.messages ++ [mkUserMessage text att uId now,
            { mkAiPlaceholder aId now with text := chunkConcat chunks, isStreaming := false }]) := by
  have hatt := handleSendMessage_retry_attempts text att uId aId now e none st chunks
  have hres := resolveInstruction_some_of_ne
    (getFullSystemInstruction st.currentAgent.systemInstruction st.currentLanguage)
    (getFullSystemInstruction_ne_empty _ _)
  have hmsg : (handleSendMessage text att uId aId now
      (Except.error e) (Except.ok chunks) none st).state.messages
      = st.messages ++ [mkUserMessage text att uId now,
          { mkAiPlaceholder aId now with text := chunkConcat chunks, isStreaming := false }] := by
    rw [handleSendMessage_retry_messages, consumeChunks_none_eq, String.empty_append,
      applyOps_eval aId _ text att uId now st.messages hFreshA hne]
  obtain ⟨hU, hL, hA, hH, _⟩ := handleSendMessage_preserves text att uId aId now
    (Except.error e) (Except.ok chunks) none st
  have hstream : ∀ m ∈ (handleSendMessage text att uId aId now
      (Except.error e) (Except.ok chunks) none st).state.messages, m.isStreaming = false := by
    rw [hmsg]
    intro m hm
    rcases List.mem_append.mp hm with h | h
    · exact hSettled m h
    · simp at h
      rcases h with h | h <;> simp [h, mkUserMessage, mkAiPlaceholder]
  refine ⟨?_, ?_, ?_, hmsg, ?_, hstream, ?_⟩
  · rw [hatt]; rfl
  · rw [hatt]
    intro a ha
    simp at ha
    rcases ha with h | h <;> simp [h]
  · rw [hatt, hres]
    rfl
  · rw [hmsg, List.countP_append]
    have h0 : st.messages.countP (fun m => decide (m.id = uId)) = 0 := by
      rw [List.countP_eq_zero]
      intro m hm
      simp [hFreshU m hm]
    rw [h0]
    simp [List.countP_cons, mkUserMessage, mkAiPlaceholder, Ne.symm hne]
  · have hlast : lastMessageStreaming (handleSendMessage text att uId aId now
        (Except.error e) (Except.ok chunks) none st).state.messages = false := by
      rw [hmsg]
      have hsplit : st.messages ++ [mkUserMessage text att uId now,
          { mkAiPlaceholder aId now with text := chunkConcat chunks, isStreaming := false }]
          = (st.messages ++ [mkUserMessage text att uId now])
            ++ [{ mkAiPlaceholder aId now with text := chunkConcat chunks, isStreaming := false }] := by
        simp
      rw [hsplit, lastMessageStreaming, List.getLast?_concat]
    have hW := saveMemoryEffect_writes (handleSendMessage text att uId aId now
        (Except.error e) (Except.ok chunks) none st).state
      (by rw [hU]; exact hUser) (by rw [hL]; exact hLoaded) hlast
    rw [hW.1, hH, hA, hmsg, storeGet_storeSet_self]

/-- Witness for C1 at a concrete input: first attempt throws "boom", retry
streams "Re", "try". -/
theorem first_send_throws_single_retry_succeeds_witness :
    ((∀ m ∈ testState.messages, m.id ≠ "a1") ∧ (∀ m ∈ testState.messages, m.id ≠ "u1")
      ∧ ("u1" : String) ≠ "a1" ∧ (∀ m ∈ testState.messages, m.isStreaming = false)
      ∧ testState.currentUser.isSome = true ∧ testState.isMemoryLoaded = true)
    ∧ (handleSendMessage "Hello" none "u1" "a1" 5
          (Except.error "boom") (Except.ok [some "Re", some "try"]) none testState).attempts.length = 2
    ∧ (handleSendMessage "Hello" none "u1" "a1" 5
          (Except.error "boom") (Except.ok [some "Re", some "try"]) none testState).state.messages
        = testState.messages ++ [mkUserMessage "Hello" none "u1" 5,
            { mkAiPlaceholder "a1" 5 with
                text := chunkConcat [some "Re", some "try"], isStreaming := false }] :=
  ⟨⟨by decide, by decide, by decide, by decide, by decide, by decide⟩,
    (first_send_throws_single_retry_succeeds testState "Hello" none "u1" "a1" 5
        "boom" [some "Re", some "try"] (by decide) (by decide) (by decide) (by decide)
        (by decide) (by decide)).1,
    (first_send_throws_single_retry_succeeds testState "Hello" none "u1" "a1" 5
        "boom" [some "Re", some "try"] (by decide) (by decide) (by decide) (by decide)
        (by decide) (by decide)).2.2.2.1⟩

/-- C10: immediately after every `resetChat()` — performed by clear, logout and
the start of every rehydration — the module-level session handle is non-null
and holds a fresh session with empty history and the first (default) agent's
system instruction; `resetChat` takes no argument, so this is independent of
which agent was active.  A send issued on that state before any
re-initialization runs its first remote attempt on that default session. -/
theorem resetChat_yields_default_session (o1 o2 : Except String (List (Option String)))
    (text : String) (hist : List Content) (instr : Option String) (att : Option Attachment) :
    resetChat.chatSession
      = some { systemInstruction := oryonSystemInstruction, history := [] }
    ∧ (AGENTS.head?.map Agent.systemInstruction) = some oryonSystemInstruction
    ∧ (sendMessageStream o1 o2 text hist instr att resetChat).attempts.head?
        = some ⟨{ systemInstruction := oryonSystemInstruction, history := [] },
                buildParts text att⟩ := by
  refine ⟨rfl, rfl, ?_⟩
  cases o1 with
  | ok chunks => simp [sendMessageStream, resetChat, initializeChat, resolveInstruction]
  | error e =>
    cases o2 <;> simp [sendMessageStream, resetChat, initializeChat, resolveInstruction]

theorem handleClearChat_eval (st : AppState) (freshId : String) (now : Nat)
    (hu : st.currentUser.isSome = true) :
    handleClearChat freshId now st = { st with
      gem := resetChat,
      historyStore := storeSet st.historyStore st.currentAgent.id [],
      localStorage := storeSet st.historyStore st.currentAgent.id [],
      messages := [mkClearMessage freshId now st.currentLanguage],
      error := none } := by
  cases hcu : st.currentUser with
  | none => rw [hcu] at hu; simp at hu
  | some u => simp [handleClearChat, hcu]

/-- A concrete state whose store and persisted blob already hold the active
agent's one-message history. -/
def clearTestState : AppState :=
  { testState with
    historyStore := [("agentA", [testMsg0])],
    localStorage := [("agentA", [testMsg0])] }

/-- Counterexample to C2 as stated: after `handleClearChat` completes and its
subsequent save-memory persistence step runs, the persisted entry for the
active agent is the one-element cleared-message sequence — not the empty
sequence (the effect re-persists the synthesized message over the empty
entry written by clear itself). -/
theorem clear_then_persist_not_empty_counterexample :
    storeGet (saveMemoryEffect (handleClearChat "c1" 9 clearTestState)).localStorage "agentA"
      ≠ some [] := by
  decide

/-- C2 amended: clear itself persists the empty sequence for the active agent
and leaves exactly one synthesized cleared message in memory (distinct, by its
fresh id, from every prior message); the subsequent save-memory persistence
step then overwrites the persisted entry with that single cleared message, so
after it the persisted entry is the one-element cleared sequence. -/
theorem clear_resets_store_and_synthesizes_message
    (st : AppState) (freshId : String) (now : Nat)
    (hUser : st.currentUser.isSome = true)
    (hLoaded : st.isMemoryLoaded = true)
    (hFresh : ∀ m ∈ st.messages, m.id ≠ freshId) :
    storeGet (handleClearChat freshId now st).localStorage st.currentAgent.id = some []
    ∧ (handleClearChat freshId now st).messages
        = [mkClearMessage freshId now st.currentLanguage]
    ∧ (∀ m ∈ st.messages, m.id ≠ (mkClearMessage freshId now st.currentLanguage).id)
    ∧ storeGet (saveMemoryEffect (handleClearChat freshId now st)).localStorage
        st.currentAgent.id = some [mkClearMessage freshId now st.currentLanguage]
    ∧ (saveMemoryEffect (handleClearChat freshId now st)).messages
        = [mkClearMessage freshId now st.currentLanguage] := by
  have hev := handleClearChat_eval st freshId now hUser
  have h1 : storeGet (handleClearChat freshId now st).localStorage st.currentAgent.id
      = some [] := by
    rw [hev]
    exact storeGet_storeSet_self _ _ _
  have h2 : (handleClearChat freshId now st).messages
      = [mkClearMessage freshId now st.currentLanguage] := by rw [hev]
  have hW := saveMemoryEffect_writes (handleClearChat freshId now st)
    (by rw [hev]; exact hUser) (by rw [hev]; exact hLoaded)
    (by rw [h2, lastMessageStreaming]; simp [mkClearMessage])
  refine ⟨h1, h2, ?_, ?_, ?_⟩
  · intro m hm
    simpa [mkClearMessage] using hFresh m hm
  · rw [hW.1, hev]
    simp [storeGet_storeSet_self]
  · rw [hW.2, h2]

/-- Witness for the amended C2 at the concrete state. -/
theorem clear_resets_store_and_synthesizes_message_witness :
    (clearTestState.currentUser.isSome = true ∧ clearTestState.isMemoryLoaded = true
      ∧ (∀ m ∈ clearTestState.messages, m.id ≠ "c1"))
    ∧ storeGet (handleClearChat "c1" 9 clearTestState).localStorage "agentA" = some []
    ∧ storeGet (saveMemoryEffect (handleClearChat "c1" 9 clearTestState)).localStorage "agentA"
        = some [mkClearMessage "c1" 9 LanguageCode.en] :=
  ⟨⟨by decide, by decide, by decide⟩,
    (clear_resets_store_and_synthesizes_message clearTestState "c1" 9
        (by decide) (by decide) (by decide)).1,
    (clear_resets_store_and_synthesizes_message clearTestState "c1" 9
        (by decide) (by decide) (by decide)).2.2.2.1⟩

/-- A message left mid-stream (a live or stale streaming placeholder). -/
def streamingMsg : Message :=
  { id := "s0", role := Role.model, text := "partial", timestamp := 3,
    isStreaming := true, type := some MsgType.text }

/-- A reachable mid-stream state: the streaming placeholder is the last
message, user present, memory loaded. -/
def midStreamState : AppState :=
  { testState with messages := [testMsg0, streamingMsg] }

/-- Counterexample to C4 as stated: invoking the agent switch while a message
is still streaming performs an unconditional write of the per-agent sequence
to the persisted store — the persisted blob changes, and the written entry for
the old agent contains the streaming message. -/
theorem persist_while_streaming_counterexample :
    midStreamState.messages.any (fun m => m.isStreaming) = true
    ∧ (handleAgentChange testAgentB "f1" 7 midStreamState).localStorage
        ≠ midStreamState.localStorage
    ∧ ((storeGet (handleAgentChange testAgentB "f1" 7 midStreamState).localStorage
          "agentA").getD []).any (fun m => m.isStreaming) = true := by
  refine ⟨by decide, by decide, by decide⟩

theorem streamingInvariant_of_settled (msgs : List Message)
    (h : ∀ m ∈ msgs, m.isStreaming = false) : streamingInvariant msgs :=
  fun m hm => h m ((List.dropLast_prefix msgs).subset hm)

/-- C4 amended: the automatic save-memory effect never writes while the last
message — hence, under the streaming invariant (a streaming message is always
last), while any message — is still mid-stream: it leaves the state untouched.
The unconditional store writes happen only in the explicit handlers
(`handleAgentChange`, `handleClearChat`), which the counterexample exhibits. -/
theorem saveMemoryEffect_no_write_while_streaming (st : AppState)
    (hInv : streamingInvariant st.messages)
    (hStream : ∃ m ∈ st.messages, m.isStreaming = true) :
    saveMemoryEffect st = st := by
  obtain ⟨m, hm, hs⟩ := hStream
  have hlast : lastMessageStreaming st.messages = true := by
    have hne : st.messages ≠ [] := by
      intro h
      rw [h] at hm
      simp at hm
    have hsplit := List.dropLast_concat_getLast hne
    have hmem : m ∈ st.messages.dropLast ++ [st.messages.getLast hne] := by
      rw [hsplit]
      exact hm
    rcases List.mem_append.mp hmem with h | h
    · exact absurd hs (by simp [hInv m h])
    · simp at h
      rw [lastMessageStreaming, List.getLast?_eq_getLast st.messages hne, ← h]
      exact hs
  by_cases hc : st.currentUser.isSome ∧ st.isMemoryLoaded = true
  · simp [saveMemoryEffect, hc, hlast]
  · simp [saveMemoryEffect, hc]

/-- Witness for the amended C4: at the concrete mid-stream state the effect is
the identity — nothing is persisted. -/
theorem saveMemoryEffect_no_write_while_streaming_witness :
    (streamingInvariant midStreamState.messages
      ∧ ∃ m ∈ midStreamState.messages, m.isStreaming = true)
    ∧ saveMemoryEffect midStreamState = midStreamState :=
  ⟨⟨by decide, by decide⟩,
    saveMemoryEffect_no_write_while_streaming midStreamState (by decide) (by decide)⟩

theorem saveMemoryEffect_preserves (st : AppState) :
    (saveMemoryEffect st).messages = st.messages
    ∧ (saveMemoryEffect st).currentAgent = st.currentAgent
    ∧ (saveMemoryEffect st).currentUser = st.currentUser
    ∧ (saveMemoryEffect st).isMemoryLoaded = st.isMemoryLoaded
    ∧ (saveMemoryEffect st).currentLanguage = st.currentLanguage := by
  by_cases hc : st.currentUser.isSome ∧ st.isMemoryLoaded = true
  · by_cases h2 : lastMessageStreaming st.messages = true
    · simp [saveMemoryEffect, hc, h2]
    · simp [saveMemoryEffect, hc, h2]
  · simp [saveMemoryEffect, hc]

theorem saveMemoryEffect_storeGet_other (st : AppState) (k : String)
    (hk : k ≠ st.currentAgent.id) :
    storeGet (saveMemoryEffect st).historyStore k = storeGet st.historyStore k := by
  by_cases hc : st.currentUser.isSome ∧ st.isMemoryLoaded = true
  · by_cases h2 : lastMessageStreaming st.messages = true
    · simp [saveMemoryEffect, hc, h2]
    · simp [saveMemoryEffect, hc, h2,
        storeGet_storeSet_other st.historyStore st.currentAgent.id k st.messages hk]
  · simp [saveMemoryEffect, hc]

theorem handleAgentChange_fields (newAgent : Agent) (fId : String) (now : Nat)
    (st : AppState) (hne : newAgent.id ≠ st.currentAgent.id) :
    (handleAgentChange newAgent fId now st).historyStore
        = storeSet st.historyStore st.currentAgent.id st.messages
    ∧ (handleAgentChange newAgent fId now st).currentAgent = newAgent
    ∧ (handleAgentChange newAgent fId now st).currentUser = st.currentUser
    ∧ (handleAgentChange newAgent fId now st).isMemoryLoaded = st.isMemoryLoaded
    ∧ (handleAgentChange newAgent fId now st).currentLanguage = st.currentLanguage := by
  by_cases hnil : (storeGet (storeSet st.historyStore st.currentAgent.id st.messages)
      newAgent.id).getD [] = []
  · simp [handleAgentChange, hne, hnil, setInitialWelcome, initializeGeminiWithHistory]
  · simp [handleAgentChange, hne, hnil, initializeGeminiWithHistory]

theorem handleAgentChange_messages_of_ne_nil (newAgent : Agent) (fId : String) (now : Nat)
    (st : AppState) (hne : newAgent.id ≠ st.currentAgent.id)
    (hnn : (storeGet (storeSet st.historyStore st.currentAgent.id st.messages)
      newAgent.id).getD [] ≠ []) :
    (handleAgentChange newAgent fId now st).messages
      = (storeGet (storeSet st.historyStore st.currentAgent.id st.messages)
          newAgent.id).getD [] := by
  simp [handleAgentChange, hne, hnn, initializeGeminiWithHistory]

/-- A state whose in-memory sequence for the active agent is empty. -/
def emptySeqState : AppState := { testState with messages := [] }

/-- Counterexample to C5 as stated (quantifying over any starting sequence):
with an empty starting in-memory sequence, switching away and back synthesizes
a welcome message instead of restoring the empty sequence exactly. -/
theorem switch_roundtrip_empty_not_restored_counterexample :
    (saveMemoryEffect (handleAgentChange testAgentA "f2" 2
        (saveMemoryEffect (handleAgentChange testAgentB "f1" 1 emptySeqState)))).messages
      ≠ emptySeqState.messages := by
  decide

/-- C5 amended: for agents A ≠ B (by id) and any NONEMPTY starting in-memory
sequence for A, switching to B and back to A — with the save-memory effect
firing after each switch but no other writes — restores A's message sequence
exactly and re-activates A.  (An empty starting sequence is instead replaced
by a synthesized welcome message, as the counterexample shows; an empty
in-memory sequence never occurs for an active agent in normal operation.) -/
theorem switch_agents_roundtrip_restores_sequence
    (st : AppState) (A B : Agent) (f1 f2 : String) (n1 n2 : Nat)
    (hA : st.currentAgent = A) (hne : B.id ≠ A.id) (hnonempty : st.messages ≠ []) :
    (saveMemoryEffect (handleAgentChange A f2 n2
        (saveMemoryEffect (handleAgentChange B f1 n1 st)))).messages = st.messages
    ∧ (saveMemoryEffect (handleAgentChange A f2 n2
        (saveMemoryEffect (handleAgentChange B f1 n1 st)))).currentAgent = A := by
  have hne1 : B.id ≠ st.currentAgent.id := by rw [hA]; exact hne
  obtain ⟨hH1, hA1, _, _, _⟩ := handleAgentChange_fields B f1 n1 st hne1
  obtain ⟨hM1, hA1e, _, _, _⟩ := saveMemoryEffect_preserves (handleAgentChange B f1 n1 st)
  have hA1' : (saveMemoryEffect (handleAgentChange B f1 n1 st)).currentAgent = B := by
    rw [hA1e, hA1]
  have hgetA : storeGet (saveMemoryEffect (handleAgentChange B f1 n1 st)).historyStore A.id
      = some st.messages := by
    rw [saveMemoryEffect_storeGet_other (handleAgentChange B f1 n1 st) A.id
      (by rw [hA1]; exact Ne.symm hne)]
    rw [hH1, hA]
    exact storeGet_storeSet_self _ _ _
  have hne2 : A.id ≠ (saveMemoryEffect (handleAgentChange B f1 n1 st)).currentAgent.id := by
    rw [hA1']
    exact Ne.symm hne
  have hget2 : (storeGet (storeSet (saveMemoryEffect (handleAgentChange B f1 n1 st)).historyStore
      (saveMemoryEffect (handleAgentChange B f1 n1 st)).currentAgent.id
      (saveMemoryEffect (handleAgentChange B f1 n1 st)).messages) A.id).getD []
      = st.messages := by
    rw [storeGet_storeSet_other _ _ _ _ hne2, hgetA]
    rfl
  have hmsg2 := handleAgentChange_messages_of_ne_nil A f2 n2
    (saveMemoryEffect (handleAgentChange B f1 n1 st)) hne2 (by rw [hget2]; exact hnonempty)
  obtain ⟨_, hA2, _, _, _⟩ := handleAgentChange_fields A f2 n2
    (saveMemoryEffect (handleAgentChange B f1 n1 st)) hne2
  obtain ⟨hM2e, hA2e, _, _, _⟩ := saveMemoryEffect_preserves
    (handleAgentChange A f2 n2 (saveMemoryEffect (handleAgentChange B f1 n1 st)))
  exact ⟨by rw [hM2e, hmsg2, hget2], by rw [hA2e, hA2]⟩

/-- Witness for the amended C5 at a concrete nonempty sequence. -/
theorem switch_agents_roundtrip_restores_sequence_witness :
    (testState.currentAgent = testAgentA ∧ testAgentB.id ≠ testAgentA.id
      ∧ testState.messages ≠ [])
    ∧ (saveMemoryEffect (handleAgentChange testAgentA "f2" 2
        (saveMemoryEffect (handleAgentChange testAgentB "f1" 1 testState)))).messages
        = testState.messages :=
  ⟨⟨by decide, by decide, by decide⟩,
    (switch_agents_roundtrip_restores_sequence testState testAgentA testAgentB "f1" "f2" 1 2
        (by decide) (by decide) (by decide)).1⟩

/-- A reachable settled state whose only message is a stale streaming
placeholder (left behind by an agent switch performed mid-stream and a switch
back: the store write of `handleAgentChange` is unconditional, the in-flight
flow then no longer matches any message id, and its loading flag is cleared
when the abandoned stream ends, so input is re-enabled). -/
def staleStreamState : AppState := { testState with messages := [streamingMsg] }

/-- Counterexample to C9 as stated: the state satisfies the invariant (its one
streaming message is last), yet the send operation — run from it exactly as
the code does — produces a sequence in which a streaming-marked message is no
longer the most recently appended one, so the invariant is not preserved by
every operation in every reachable state. -/
theorem streaming_invariant_not_preserved_counterexample :
    streamingInvariant staleStreamState.messages
    ∧ ¬ streamingInvariant (handleSendMessage "hi" none "u9" "a9" 8
        (Except.ok [some "ok"]) (Except.ok []) none staleStreamState).state.messages := by
  refine ⟨by decide, by decide⟩

theorem streamingInvariant_applyText (aId acc : String) (msgs : List Message)
    (h : streamingInvariant msgs) : streamingInvariant (applyText aId acc msgs) := by
  intro m hm
  rw [applyText, ← List.map_dropLast] at hm
  obtain ⟨x, hx, hfx⟩ := List.mem_map.mp hm
  by_cases hid : x.id = aId
  · rw [← hfx]
    simpa [hid] using h x hx
  · rw [← hfx]
    simpa [hid] using h x hx

theorem streamingInvariant_applyStreamingDone (aId : String) (msgs : List Message)
    (h : streamingInvariant msgs) : streamingInvariant (applyStreamingDone aId msgs) := by
  intro m hm
  rw [applyStreamingDone, ← List.map_dropLast] at hm
  obtain ⟨x, hx, hfx⟩ := List.mem_map.mp hm
  by_cases hid : x.id = aId
  · rw [← hfx]
    simp [hid]
  · rw [← hfx]
    simpa [hid] using h x hx

theorem streamingInvariant_exchange_base (A : List Message) (u p : Message)
    (hA : ∀ m ∈ A, m.isStreaming = false) (hu : u.isStreaming = false) :
    streamingInvariant ((A ++ [u]) ++ [p]) := by
  intro m hm
  rw [List.dropLast_concat] at hm
  rcases List.mem_append.mp hm with h | h
  · exact hA m h
  · simp at h
    rw [h]
    exact hu

/-- C9 amended: provided a send starts from a settled sequence (no message
mid-stream) and the stored sequence an agent switch loads itself satisfies the
invariant, every operation preserves the streaming invariant: the state after
appending the user message and the placeholder, every fragment-merge state,
the final state of a send under any oracle outcome (success, retry success,
double failure) and any stop schedule, the state after clear, the state after
an agent switch, and the save-memory effect (which never alters the sequence).
Without the settled-start proviso the invariant is not preserved, as the
counterexample shows (a stale streaming message left by a mid-stream agent
switch). -/
theorem streaming_invariant_preservation
    (st : AppState) (text acc : String) (att : Option Attachment)
    (uId aId cId fId : String) (now : Nat)
    (o1 o2 : Except String (List (Option String))) (stopAt : Option Nat) (B : Agent)
    (hSettled : ∀ m ∈ st.messages, m.isStreaming = false)
    (hB : streamingInvariant ((storeGet (storeSet st.historyStore st.currentAgent.id
        st.messages) B.id).getD [])) :
    streamingInvariant ((st.messages ++ [mkUserMessage text att uId now])
        ++ [mkAiPlaceholder aId now])
    ∧ streamingInvariant (applyText aId acc ((st.messages ++ [mkUserMessage text att uId now])
        ++ [mkAiPlaceholder aId now]))
    ∧ streamingInvariant (handleSendMessage text att uId aId now o1 o2 stopAt st).state.messages
    ∧ streamingInvariant (handleClearChat cId now st).messages
    ∧ streamingInvariant (handleAgentChange B fId now st).messages
    ∧ (saveMemoryEffect st).messages = st.messages := by
  have hbase := streamingInvariant_exchange_base st.messages (mkUserMessage text att uId now)
    (mkAiPlaceholder aId now) hSettled (by simp [mkUserMessage])
  refine ⟨hbase, streamingInvariant_applyText _ _ _ hbase, ?_, ?_, ?_,
    (saveMemoryEffect_preserves st).1⟩
  · cases o1 with
    | ok chunks =>
      rw [handleSendMessage_ok_messages]
      exact streamingInvariant_applyStreamingDone _ _
        (streamingInvariant_applyText _ _ _ hbase)
    | error e1 =>
      cases o2 with
      | ok chunks =>
        rw [handleSendMessage_retry_messages]
        exact streamingInvariant_applyStreamingDone _ _
          (streamingInvariant_applyText _ _ _ hbase)
      | error e2 =>
        rw [(handleSendMessage_err_eval text att uId aId now stopAt st e1 e2).1]
        apply streamingInvariant_of_settled
        intro m hm
        simpa using List.of_mem_filter hm
  · cases hcu : st.currentUser with
    | none =>
      simp only [handleClearChat, hcu]
      exact streamingInvariant_of_settled _ hSettled
    | some u =>
      simp only [handleClearChat, hcu]
      intro m hm
      simp at hm
  · by_cases hguard : B.id = st.currentAgent.id
    · simp only [handleAgentChange, if_pos hguard]
      exact streamingInvariant_of_settled _ hSettled
    · by_cases hnil : (storeGet (storeSet st.historyStore st.currentAgent.id st.messages)
          B.id).getD [] = []
      · have hw : (handleAgentChange B fId now st).messages
            = [mkWelcomeMessage fId now ((st.currentUser.map User.displayName).getD "User")
                B st.currentLanguage] := by
          simp [handleAgentChange, hguard, hnil, setInitialWelcome, initializeGeminiWithHistory]
        rw [hw]
        intro m hm
        simp at hm
      · rw [handleAgentChange_messages_of_ne_nil B fId now st hguard hnil]
        exact hB

/-- Witness for the amended C9 at concrete inputs: a successful send from the
settled test state and a clear both leave the invariant intact. -/
theorem streaming_invariant_preservation_witness :
    ((∀ m ∈ testState.messages, m.isStreaming = false)
      ∧ streamingInvariant ((storeGet (storeSet testState.historyStore
          testState.currentAgent.id testState.messages) testAgentB.id).getD []))
    ∧ streamingInvariant (handleSendMessage "hi" none "u1" "a1" 5
        (Except.ok [some "ok"]) (Except.ok []) none testState).state.messages
    ∧ streamingInvariant (handleClearChat "c1" 5 testState).messages :=
  ⟨⟨by decide, by decide⟩,
    (streaming_invariant_preservation testState "hi" "" none "u1" "a1" "c1" "f1" 5
        (Except.ok [some "ok"]) (Except.ok []) none testAgentB
        (by decide) (by decide)).2.2.1,
    (streaming_invariant_preservation testState "hi" "" none "u1" "a1" "c1" "f1" 5
        (Except.ok [some "ok"]) (Except.ok []) none testAgentB
        (by decide) (by decide)).2.2.2.1⟩

end Oryon
